import Mathlib

/-!
# Verification of the path-manager core of rtsp-simple-server (fionera fork)

Shallow embedding of `internal/pathman/pathman.go` and
`internal/metrics/metrics.go`.  Go maps are modelled as association lists
(fixing one iteration order), Go pointers by a numeric identity (`id`) carried
inside each config value together with an allocation counter (`nextId`) in the
manager state, Go `nil` slices/functions by `Option`, and the external HTTP
exchange of `DoAuthRequest` by an explicit `HTTPResult` input.  Functions of
the `conf` and `path` packages that are not part of the given sources
(`CheckPathName`, `PathConf.Equal`, `PathConf.GetInstance`, the accessors of
`path.Path`) are modelled from the spec and marked as such in their doc
comments.
-/

namespace RSS

/-! ## Go net: IP addresses (stdlib semantics used by pathman.go) -/

/-- A Go `net.IP`: a byte slice (length 4 for IPv4, 16 for IPv6). -/
abbrev IPBytes := List Nat

/-- The 12-byte marker with which an IPv4 address is embedded in IPv6 form
(Go `v4InV6Prefix`). -/
def v4InV6Marker : IPBytes := [0, 0, 0, 0, 0, 0, 0, 0, 0, 0, 255, 255]

/-- Go `net.IP.Equal`: byte equality, treating an IPv4 address and the same
address in IPv6 form as equal. -/
def ipEqual (a b : IPBytes) : Bool :=
  if a.length = b.length then a = b
  else if a.length = 4 ∧ b.length = 16 then
    b.take 12 = v4InV6Marker ∧ a = b.drop 12
  else if a.length = 16 ∧ b.length = 4 then
    a.take 12 = v4InV6Marker ∧ a.drop 12 = b
  else false

/-- Go `net.IP.To4`: the 4-byte form of an address, when it has one. -/
def ipTo4 (a : IPBytes) : Option IPBytes :=
  if a.length = 4 then some a
  else if a.length = 16 ∧ a.take 12 = v4InV6Marker then some (a.drop 12)
  else none

/-- Go `net.IPNet.Contains`: mask the candidate address and compare with the
network number, after normalising both to 4-byte form when possible. -/
def netContains (network mask ip : IPBytes) : Bool :=
  let nn := (ipTo4 network).getD network
  let m := if nn.length = 4 ∧ mask.length = 16 then mask.drop 12 else mask
  let x := (ipTo4 ip).getD ip
  if nn.length ≠ x.length then false
  else (List.zip nn (List.zip m x)).all fun p =>
    p.1 &&& p.2.1 = p.2.2 &&& p.2.1

/-- One element of a parsed IP list (`[]interface{}` holding `net.IP` or
`*net.IPNet` values, as produced by the conf parser). -/
inductive IPSpec
| addr (ip : IPBytes)
| cidr (network mask : IPBytes)
deriving Repr, DecidableEq

/-- pathman.go lines 22-37: true when `ip` equals a listed address or lies in
a listed CIDR range. -/
def ipEqualOrInRange (ip : IPBytes) (ips : List IPSpec) : Bool :=
  ips.any fun item =>
    match item with
    | .addr titem => ipEqual titem ip
    | .cidr nn m => netContains nn m ip

/-! ## Data model: PathConf, Path, manager state -/

/-- A `*conf.PathConf`.  The `id` field models the Go pointer identity of the
object; all other fields are the configuration payload used by pathman.go.
A `regexpPat` of `none` models a `nil` `Regexp` field (a literal entry);
`some pat` models a compiled regex, represented by its source pattern.
`readIPsParsed`/`publishIPsParsed` of `none` model `nil` slices. -/
structure PathConf where
  id : Nat
  source : String
  sourceOnDemand : Bool
  regexpPat : Option String
  publishUser : String
  publishPass : String
  publishIPsParsed : Option (List IPSpec)
  readUser : String
  readPass : String
  readIPsParsed : Option (List IPSpec)
  httpCallback : String
  runOnInit : String
  runOnDemand : String
  runOnPublish : String
  runOnRead : String
deriving Repr, DecidableEq

/-- Modelled from the spec: `conf.PathConf.Equal` is not under src.  Spec §3
says "Equality is structural over every field above" and §9 says to compare
compiled regexes by source pattern, not compiled object; so: structural
equality of every configuration field, ignoring the pointer identity. -/
def PathConf.Equal (a b : PathConf) : Bool :=
  a.source = b.source ∧ a.sourceOnDemand = b.sourceOnDemand
    ∧ a.regexpPat = b.regexpPat
    ∧ a.publishUser = b.publishUser ∧ a.publishPass = b.publishPass
    ∧ a.publishIPsParsed = b.publishIPsParsed
    ∧ a.readUser = b.readUser ∧ a.readPass = b.readPass
    ∧ a.readIPsParsed = b.readIPsParsed
    ∧ a.httpCallback = b.httpCallback
    ∧ a.runOnInit = b.runOnInit ∧ a.runOnDemand = b.runOnDemand
    ∧ a.runOnPublish = b.runOnPublish ∧ a.runOnRead = b.runOnRead

/-- A live `*path.Path` as far as the manager observes it.  Modelled from the
spec (the `path` package is not under src): `path.New` records the conf name,
the conf object and the live name it was created with, and `ConfName`/`Conf`
return them (spec §4.2 step 4, §9 self-close guard). -/
structure Path where
  confName : String
  conf : PathConf
  name : String
deriving Repr, DecidableEq

/-- Association-list lookup with decidable `String` keys; models Go map
indexing (first entry with the key wins; well-formed states have unique
keys). -/
def lookupKey {α : Type} (m : List (String × α)) (k : String) : Option α :=
  match m with
  | [] => none
  | (k2, v) :: rest => if k2 = k then some v else lookupKey rest k

/-- Association-list insert/replace; models Go map assignment. -/
def setKey {α : Type} (m : List (String × α)) (k : String) (v : α) :
    List (String × α) :=
  match m with
  | [] => [(k, v)]
  | (k2, v2) :: rest =>
    if k2 = k then (k2, v) :: rest else (k2, v2) :: setKey rest k v

/-- The mutable state of the `PathManager` actor: the config registry
`pathConfs`, the live path set `paths` (keyed by source), and the allocation
counter modelling fresh Go pointers. -/
structure PMState where
  pathConfs : List (String × PathConf)
  paths : List (String × Path)
  nextId : Nat
deriving Repr, DecidableEq

/-! ## Name validation and config resolution -/

/-- Two consecutive slashes somewhere in the character list (an interior
empty segment). -/
def hasAdjacentSlashes : List Char → Bool
  | [] => false
  | [_] => false
  | a :: b :: rest => (a = '/' ∧ b = '/') ∨ hasAdjacentSlashes (b :: rest)

/-- Modelled from the spec: `conf.CheckPathName` is not under src.  Spec §4.1:
"Name validation rejects names containing control characters, leading/trailing
slashes, or empty segments before lookup."  An empty name is an empty segment.
Returns `some errMsg` on a bad name. -/
def CheckPathName (name : String) : Option String :=
  let cs := name.toList
  if cs.any (fun c => c.toNat < 32 ∨ c.toNat = 127) then
    some ("contains control characters")
  else if cs.head? = some '/' then some ("begins with a slash")
  else if cs.getLast? = some '/' then some ("ends with a slash")
  else if cs = [] ∨ hasAdjacentSlashes cs then
    some ("contains an empty segment")
  else none

/-- Modelled from the spec: `conf.PathConf.GetInstance` is not under src.
Spec §4.1: "Instantiation for a regex entry substitutes the live name into the
template so downstream code sees a concrete config"; the glossary adds that
for push sources the source key is the path name itself after regex
substitution.  A literal entry is returned unchanged (the same object); a
regex entry yields a fresh object whose source is the live name for push
sources.  Returns the instance together with the updated allocator. -/
def PathConf.GetInstance (c : PathConf) (name : String) (nextId : Nat) :
    PathConf × Nat :=
  match c.regexpPat with
  | none => (c, nextId)
  | some _ =>
    ({ c with id := nextId,
              source := if c.source = "publisher" then name else c.source },
      nextId + 1)

/-- pathman.go lines 323-342 (`findPathConf`): validate the name, then exact
map lookup, then first regex entry whose pattern matches, else a not-found
error.  `ms` is the Go regexp engine (`Regexp.MatchString`), abstracted as a
function from pattern and input to a boolean.  Returns the resolution outcome
together with the updated allocator. -/
def findPathConf (ms : String → String → Bool) (s : PMState) (name : String) :
    Except String (String × PathConf) × Nat :=
  match CheckPathName name with
  | some err =>
    (.error ("invalid path name: " ++ err ++ " (" ++ name ++ ")"), s.nextId)
  | none =>
    match lookupKey s.pathConfs name with
    | some pathConf =>
      let (inst, nid) := pathConf.GetInstance name s.nextId
      (.ok (name, inst), nid)
    | none =>
      match s.pathConfs.find? (fun p =>
          match p.2.regexpPat with
          | some pat => ms pat name
          | none => false) with
      | some (pathName, pathConf) =>
        let (inst, nid) := pathConf.GetInstance name s.nextId
        (.ok (pathName, inst), nid)
      | none =>
        (.error ("unable to find a valid configuration for path '"
            ++ name ++ "'"), s.nextId)

/-! ## Authentication (pathman.go lines 387-416) -/

/-- An error returned by `authenticate`: either the IP rejection built at
lines 398-403 (an `ErrAuthCritical` carrying a wire status code), or an error
propagated unchanged from the caller-supplied credential validator. -/
inductive AuthError
| authCritical (message : String) (statusCode : Nat)
| credential (err : String)
deriving Repr, DecidableEq

/-- The message of the IP rejection, `fmt.Sprintf("IP not allowed", ip)`
style: the offending address rendered into the text. -/
def ipNotAllowedMsg (ip : IPBytes) : String :=
  "IP '" ++ String.intercalate "." (ip.map toString) ++ "' not allowed"

/-- The credential half of `authenticate` (lines 407-413): when a path user is
configured and a validator was supplied, run it and propagate its error. -/
def credentialGate (validateCredentials : Option (String → String → Option String))
    (pathUser pathPass : String) : Option AuthError :=
  if pathUser ≠ "" then
    match validateCredentials with
    | some v => (v pathUser pathPass).map .credential
    | none => none
  else none

/-- pathman.go lines 387-416 (`authenticate`): when both the parsed IP list
and the caller IP are non-nil, reject with a 401 `ErrAuthCritical` unless the
IP equals a listed address or lies in a listed range; then run the credential
gate.  `none` means success. -/
def authenticate (ip : Option IPBytes)
    (validateCredentials : Option (String → String → Option String))
    (pathIPs : Option (List IPSpec))
    (pathUser pathPass : String) : Option AuthError :=
  match pathIPs, ip with
  | some ips, some i =>
    if ¬ ipEqualOrInRange i ips then
      some (.authCritical (ipNotAllowedMsg i) 401)
    else credentialGate validateCredentials pathUser pathPass
  | _, _ => credentialGate validateCredentials pathUser pathPass

/-! ## Auth delegate (pathman.go lines 418-466) -/

/-- The decision decoded from the delegate response (`PlayRequestAction`). -/
structure PlayRequestAction where
  close : Bool
  target : String
deriving Repr, DecidableEq

/-- The outcome of the HTTP POST issued by `DoAuthRequest`: a transport error,
or a response with its status code and the value of the `Location` header
(`""` when the header is absent, as Go `Header.Get` returns). -/
inductive HTTPResult
| transportError (err : String)
| response (statusCode : Nat) (location : String)
deriving Repr, DecidableEq

/-- How the HTTP client used by `DoAuthRequest` treats redirects. -/
inductive RedirectPolicy
| follow
| useLastResponse
deriving Repr, DecidableEq

/-- pathman.go lines 441-445: the client `CheckRedirect` hook returns
`http.ErrUseLastResponse`, so redirect responses are returned to the caller
instead of being followed. -/
def doAuthRequestRedirectPolicy : RedirectPolicy := .useLastResponse

/-- pathman.go lines 429-466 (`DoAuthRequest`): with no callback configured,
allow immediately; otherwise classify the delegate response by status code.
`resp` stands for the outcome of the POST to `pathConf.HTTPCallback`. -/
def DoAuthRequest (pathConf : PathConf) (resp : HTTPResult) :
    Except String PlayRequestAction :=
  if pathConf.httpCallback = "" then .ok ⟨false, ""⟩
  else
    match resp with
    | .transportError e => .error e
    | .response status location =>
      if 200 ≤ status ∧ status ≤ 299 then .ok ⟨false, ""⟩
      else if 300 ≤ status ∧ status ≤ 399 then
        if location = "" then
          .error ("invalid location header in redirect response. closing connection")
        else .ok ⟨false, location⟩
      else if 400 ≤ status ∧ status ≤ 499 then .ok ⟨true, ""⟩
      else .error ("invalid redirect response. closing connection")

/-! ## Path creation (pathman.go lines 299-321) -/

/-- pathman.go lines 299-313 (`createPath`): `path.New` invoked with the conf
name, the conf object and the live name; the accessors of the resulting Path
are modelled from the spec (see `Path`). -/
def createPath (confName : String) (conf : PathConf) (name : String) : Path :=
  { confName := confName, conf := conf, name := name }

/-- pathman.go lines 315-321 (`createPaths`): for every literal registry entry
whose source is not a live path key, create a Path for it.  Exactly as in the
source, the created Path is only spawned, never assigned into `pm.paths` (the
call result at line 318 is discarded), so the state is unchanged; the list of
spawned Paths is returned as evidence. -/
def createPaths (s : PMState) : PMState × List Path :=
  (s, s.pathConfs.filterMap fun p =>
    if (lookupKey s.paths p.2.source).isNone ∧ p.2.regexpPat = none then
      some (createPath p.1 p.2 p.1)
    else none)

/-- pathman.go lines 70-109 (`New`): record the given registry, start with an
empty live path set, and run `createPaths`.  Returns the initial state and the
Paths spawned (but, per the source, not stored) by `createPaths`.  `nextId`
seeds the pointer allocator. -/
def New (pathConfs : List (String × PathConf)) (nextId : Nat) :
    PMState × List Path :=
  createPaths { pathConfs := pathConfs, paths := [], nextId := nextId }

/-! ## Request handling (the run loop cases, pathman.go lines 122-297) -/

/-- The kinds of error replies a request handler can send on the reply
channel. -/
inductive ReqError
| find (msg : String)
| callback (msg : String)
| notAllowed
| auth (e : AuthError)
deriving Repr, DecidableEq

/-- What the manager does with one request: send exactly one error reply and
stop, forward the request to the live Path stored at the given source key, or
attempt the forward when no Path is stored at the key — in Go the map lookup
then yields a nil `*path.Path` and the method call on it panics. -/
inductive HandlerOutcome
| replyErr (e : ReqError)
| forward (sourceKey : String)
| nilDeref (sourceKey : String)
deriving Repr, DecidableEq

/-- The fields of a Describe / SetupPlay / Announce request envelope the
manager reads (`readpublisher` request structs).  The remote and local
addresses only flow into the delegate payload and are absorbed into the
`HTTPResult` input. -/
structure ReqInput where
  pathName : String
  ip : Option IPBytes
  validateCredentials : Option (String → String → Option String)

/-- pathman.go lines 169-215 (the `rpDescribe` case) and lines 217-262 (the
`rpSetupPlay` case), which are textually identical up to the reply wrapper:
resolve the config, consult the auth delegate, on a redirect target replace
the source on a fresh copy of the config (lines 191-195 / 239-243), run
`authenticate` with the read-side gates, store a new Path under the resolved
source if none is live, and forward to the Path at that key.  `resp` stands
for the outcome of the delegate POST. -/
def handlePlay (ms : String → String → Bool) (resp : HTTPResult)
    (s : PMState) (req : ReqInput) : PMState × HandlerOutcome :=
  match findPathConf ms s req.pathName with
  | (.error e, nid) => ({ s with nextId := nid }, .replyErr (.find e))
  | (.ok (pathName, pathConf), nid) =>
    match DoAuthRequest pathConf resp with
    | .error e => ({ s with nextId := nid }, .replyErr (.callback e))
    | .ok action =>
      if action.close then ({ s with nextId := nid }, .replyErr .notAllowed)
      else
        let (pathConf, nid) :=
          if action.target ≠ "" then
            ({ pathConf with id := nid, source := action.target }, nid + 1)
          else (pathConf, nid)
        match authenticate req.ip req.validateCredentials
            pathConf.readIPsParsed pathConf.readUser pathConf.readPass with
        | some e => ({ s with nextId := nid }, .replyErr (.auth e))
        | none =>
          let s1 : PMState :=
            if (lookupKey s.paths pathConf.source).isNone then
              { s with nextId := nid,
                       paths := setKey s.paths pathConf.source
                         (createPath pathName pathConf req.pathName) }
            else { s with nextId := nid }
          (s1, .forward pathConf.source)

/-- pathman.go lines 264-289 (the `rpAnnounce` case): resolve the config, run
`authenticate` with the publish-side gates, then — exactly as in the source —
line 286 creates a Path when none is live at the resolved source but discards
it instead of assigning into `pm.paths`, and line 289 forwards to
`pm.paths[pathConf.Source]`.  Returns the new state, the Path spawned and
dropped (if any), and the outcome. -/
def handleAnnounce (ms : String → String → Bool)
    (s : PMState) (req : ReqInput) : PMState × Option Path × HandlerOutcome :=
  match findPathConf ms s req.pathName with
  | (.error e, nid) => ({ s with nextId := nid }, none, .replyErr (.find e))
  | (.ok (pathName, pathConf), nid) =>
    match authenticate req.ip req.validateCredentials
        pathConf.publishIPsParsed pathConf.publishUser pathConf.publishPass with
    | some e => ({ s with nextId := nid }, none, .replyErr (.auth e))
    | none =>
      let spawned :=
        if (lookupKey s.paths pathConf.source).isNone then
          some (createPath pathName pathConf req.pathName)
        else none
      match lookupKey s.paths pathConf.source with
      | some _ => ({ s with nextId := nid }, spawned, .forward pathConf.source)
      | none => ({ s with nextId := nid }, spawned, .nilDeref pathConf.source)

/-! ## Config reload (pathman.go lines 128-160) -/

/-- pathman.go lines 129-148, the three registry loops of the `confReload`
case: drop stored keys absent from the incoming map; for keys in both,
replace the stored config with the incoming one only when structurally
unequal (`Equal`); append keys that are only in the incoming map. -/
def reloadConfs (old newConfs : List (String × PathConf)) :
    List (String × PathConf) :=
  let confs1 := old.filter fun p => (lookupKey newConfs p.1).isSome
  let confs2 := confs1.map fun p =>
    match lookupKey newConfs p.1 with
    | some nc => if p.2.Equal nc then p else (p.1, nc)
    | none => p
  confs2 ++ newConfs.filter fun p => (lookupKey confs2 p.1).isNone

/-- pathman.go line 153, the survival test of the path-removal loop: the live
Path survives iff its conf name is still a registry key and the stored config
is still the same object (`pathConf != pa.Conf()` is a Go pointer comparison,
modelled by the `id` fields). -/
def keepPath (confs : List (String × PathConf)) (kp : String × Path) : Bool :=
  match lookupKey confs kp.2.confName with
  | none => false
  | some c => c.id = kp.2.conf.id

/-- pathman.go lines 128-160 (the `confReload` case): update the registry
(`reloadConfs`), close every live Path failing `keepPath`, then run
`createPaths`.  Returns the new state, the closed Paths, and the Paths
spawned (but not stored) by `createPaths`. -/
def handleConfReload (s : PMState) (newConfs : List (String × PathConf)) :
    PMState × List Path × List Path :=
  let confs3 := reloadConfs s.pathConfs newConfs
  let closed := (s.paths.filter fun kp => ! keepPath confs3 kp).map Prod.snd
  let s2 : PMState :=
    { s with pathConfs := confs3, paths := s.paths.filter (keepPath confs3) }
  let (s3, spawned) := createPaths s2
  (s3, closed, spawned)

/-! ## Metrics (metrics.go) -/

/-- The error value returned by `http.Server.ListenAndServe` (it always
returns a non-nil error): the graceful-shutdown sentinel
`http.ErrServerClosed`, or any other error. -/
inductive ServeError
| errServerClosed
| other (msg : String)
deriving Repr, DecidableEq

/-- How the metrics goroutine ends. -/
inductive RunOutcome
| returned
| panicked (e : ServeError)
deriving Repr, DecidableEq

/-- metrics.go lines 83-88 (`Metrics.run`): panic unless `ListenAndServe`
returned `http.ErrServerClosed`.  `err` is the value `ListenAndServe`
returned. -/
def metricsRun (err : ServeError) : RunOutcome :=
  if err = .errServerClosed then .returned else .panicked err

/-- Modelled from the spec / the documented `net/http` contract: after
`Metrics.Close` (metrics.go lines 79-81) calls `server.Shutdown`, the pending
`ListenAndServe` returns `http.ErrServerClosed`. -/
def listenAndServeAfterClose : ServeError := .errServerClosed

/-! ## Derived predicates and concrete fixtures -/

/-- One arm of the `switch` in `ipEqualOrInRange`: does a single list element
admit the address? -/
def ipSpecMatches (spec : IPSpec) (ip : IPBytes) : Bool :=
  match spec with
  | .addr titem => ipEqual titem ip
  | .cidr nn m => netContains nn m ip

/-- Whether an `authenticate` outcome is the IP rejection built at pathman.go
lines 398-403 (as opposed to success or a propagated credential error). -/
def isIPCritical (r : Option AuthError) : Bool :=
  match r with
  | some (.authCritical _ _) => true
  | _ => false

/-- A minimal literal push config (source `publisher`), pointer id 1. -/
def sampleConf : PathConf :=
  { id := 1, source := "publisher", sourceOnDemand := false,
    regexpPat := none, publishUser := "", publishPass := "",
    publishIPsParsed := none, readUser := "", readPass := "",
    readIPsParsed := none, httpCallback := "",
    runOnInit := "", runOnDemand := "", runOnPublish := "", runOnRead := "" }

/-- `sampleConf` with an auth-delegate callback configured. -/
def cbConf : PathConf := { sampleConf with httpCallback := "http://auth.local/cb" }

/-- A regexp engine under which no pattern matches (no regex entries are
exercised). -/
def noMatch : String → String → Bool := fun _ _ => false

/-- A request for path `cam1` carrying no client IP and no credential
validator. -/
def sampleReq : ReqInput :=
  { pathName := "cam1", ip := none, validateCredentials := none }

/-- A manager state with one literal entry `cam1` (callback configured) and
no live paths. -/
def state0 : PMState :=
  { pathConfs := [("cam1", cbConf)], paths := [], nextId := 2 }

/-- A manager state with one literal entry `cam1` (no callback) and no live
paths, as produced by `New` (whose `createPaths` stores nothing). -/
def announceState : PMState :=
  { pathConfs := [("cam1", sampleConf)], paths := [], nextId := 2 }

/-- The state after a Describe for `cam1` whose auth delegate answered
`302 Location: rtsp://u/x`: the live set holds one Path keyed by the redirect
target, carrying a fresh copy of the config. -/
def redirectedState : PMState :=
  (handlePlay noMatch (.response 302 "rtsp://u/x") state0 sampleReq).1

/-- The Path living in `redirectedState`: conf name `cam1`, a copied config
object (pointer id 2) whose source is the redirect target. -/
def redirectedPath : Path :=
  createPath "cam1" { cbConf with id := 2, source := "rtsp://u/x" } "cam1"

/-- A regex entry for names starting with `live/` (push source). -/
def reConf : PathConf := { sampleConf with regexpPat := some "^live/" }

/-- What `GetInstance` makes of `reConf` for the live name `live/a` with
allocator 2: a fresh object (pointer id 2) whose source is the live name. -/
def reConfInstance : PathConf :=
  { sampleConf with id := 2, source := "live/a", regexpPat := some "^live/" }

/-- A registry holding only the regex entry, under a manager state with
allocator 2. -/
def reState : PMState :=
  { pathConfs := [("~live", reConf)], paths := [], nextId := 2 }

/-- A regexp engine that implements the single pattern of `reConf`. -/
def liveMatch : String → String → Bool :=
  fun pat n => pat = "^live/" ∧ List.isPrefixOf ("live/".toList) n.toList

/-- A manager state whose single live Path carries the very config object
stored in the registry (as a Describe with no callback produces): the
well-aligned situation in which a reload of an identical map is a no-op. -/
def storedPathState : PMState :=
  { pathConfs := [("cam1", sampleConf)],
    paths := [("publisher", createPath "cam1" sampleConf "cam1")],
    nextId := 2 }

/-! ## Helper lemmas -/

theorem lookupKey_setKey_self {α : Type} (m : List (String × α)) (k : String) (v : α) :
    lookupKey (setKey m k v) k = some v := by
  induction m with
  | nil => simp [setKey, lookupKey]
  | cons hd t ih =>
    rcases hd with ⟨k2, v2⟩
    by_cases hk : k2 = k
    · simp [setKey, lookupKey, hk]
    · simp [setKey, lookupKey, hk, ih]

theorem lookupKey_isSome_of_mem {α : Type} {m : List (String × α)} {p : String × α}
    (hp : p ∈ m) : (lookupKey m p.1).isSome := by
  induction m with
  | nil => cases hp
  | cons hd t ih =>
    rcases hd with ⟨k2, v2⟩
    rcases List.mem_cons.mp hp with h | h
    · subst h; simp [lookupKey]
    · by_cases hk : k2 = p.1
      · simp [lookupKey, hk]
      · simp [lookupKey, hk, ih h]

theorem ipEqualOrInRange_eq_any (ip : IPBytes) (ips : List IPSpec) :
    ipEqualOrInRange ip ips = ips.any fun spec => ipSpecMatches spec ip := by
  unfold ipEqualOrInRange
  congr 1

/-! ## Claim theorems -/

/-- Claim C9: if the metrics listen-and-serve loop returns any error other
than the graceful-shutdown sentinel `http.ErrServerClosed`, the goroutine
panics (aborting the process); after a graceful `Close` the loop receives the
sentinel and does not abort. -/
theorem metrics_run_aborts_unless_closed (e : ServeError)
    (h : e ≠ ServeError.errServerClosed) :
    metricsRun e = .panicked e
      ∧ metricsRun listenAndServeAfterClose = .returned := by
  constructor
  · unfold metricsRun
    simp [h]
  · rfl

theorem metrics_run_aborts_unless_closed_witness :
    metricsRun (.other "listen tcp :9998: bind: address already in use") =
      .panicked (.other "listen tcp :9998: bind: address already in use")
      ∧ metricsRun listenAndServeAfterClose = .returned :=
  metrics_run_aborts_unless_closed
    (.other "listen tcp :9998: bind: address already in use") (by decide)

/-- Claim C10: a request whose client IP is nil skips the IP allow-list check
entirely: `authenticate` goes straight to the credential gate and never
returns the IP-based `AuthCritical` rejection, even when the parsed IP list
is non-nil and non-empty. -/
theorem nil_ip_skips_ip_allow_list
    (v : Option (String → String → Option String))
    (ips : Option (List IPSpec)) (u p : String) :
    authenticate none v ips u p = credentialGate v u p
      ∧ isIPCritical (authenticate none v ips u p) = false := by
  have hbody : authenticate none v ips u p = credentialGate v u p := by
    unfold authenticate
    cases ips <;> rfl
  refine ⟨hbody, ?_⟩
  rw [hbody]
  unfold credentialGate
  split
  · cases v with
    | none => rfl
    | some f =>
      cases hf : f u p with
      | none => simp [isIPCritical, hf]
      | some e => simp [isIPCritical, hf]
  · rfl

/-- Claim C6: `DoAuthRequest` classifies the delegate response purely by
status code — 2xx allows, 3xx redirects to the `Location` header value (an
empty header being the fatal invalid-location error), 4xx denies (close), and
every other status is a fatal error — and the HTTP client is configured never
to follow redirects automatically. -/
theorem doAuthRequest_status_classification (c : PathConf) (status : Nat)
    (loc : String) (hcb : c.httpCallback ≠ "") :
    (200 ≤ status → status ≤ 299 →
      DoAuthRequest c (.response status loc) = .ok ⟨false, ""⟩)
    ∧ (300 ≤ status → status ≤ 399 → loc ≠ "" →
      DoAuthRequest c (.response status loc) = .ok ⟨false, loc⟩)
    ∧ (300 ≤ status → status ≤ 399 → loc = "" →
      DoAuthRequest c (.response status loc) =
        .error ("invalid location header in redirect response. closing connection"))
    ∧ (400 ≤ status → status ≤ 499 →
      DoAuthRequest c (.response status loc) = .ok ⟨true, ""⟩)
    ∧ (status < 200 ∨ 500 ≤ status →
      DoAuthRequest c (.response status loc) =
        .error ("invalid redirect response. closing connection"))
    ∧ doAuthRequestRedirectPolicy = .useLastResponse := by
  unfold DoAuthRequest
  simp only [if_neg hcb]
  refine ⟨?_, ?_, ?_, ?_, ?_, rfl⟩
  · intro h1 h2
    have : (200 ≤ status ∧ status ≤ 299) = True := by simp [h1, h2]
    simp [this]
  · intro h1 h2 hl
    have hn : ¬ (200 ≤ status ∧ status ≤ 299) := by omega
    simp [hn, h1, h2, hl]
  · intro h1 h2 hl
    have hn : ¬ (200 ≤ status ∧ status ≤ 299) := by omega
    simp [hn, h1, h2, hl]
  · intro h1 h2
    have hn : ¬ (200 ≤ status ∧ status ≤ 299) := by omega
    have hn2 : ¬ (300 ≤ status ∧ status ≤ 399) := by omega
    simp [hn, hn2, h1, h2]
  · intro h
    have hn : ¬ (200 ≤ status ∧ status ≤ 299) := by omega
    have hn2 : ¬ (300 ≤ status ∧ status ≤ 399) := by omega
    have hn3 : ¬ (400 ≤ status ∧ status ≤ 499) := by omega
    simp [hn, hn2, hn3]

theorem doAuthRequest_status_classification_witness :
    DoAuthRequest cbConf (.response 204 "") = .ok ⟨false, ""⟩
      ∧ DoAuthRequest cbConf (.response 302 "rtsp://u/x") = .ok ⟨false, "rtsp://u/x"⟩
      ∧ DoAuthRequest cbConf (.response 302 "") =
          .error ("invalid location header in redirect response. closing connection")
      ∧ DoAuthRequest cbConf (.response 403 "") = .ok ⟨true, ""⟩
      ∧ DoAuthRequest cbConf (.response 500 "") =
          .error ("invalid redirect response. closing connection") := by
  have hcb : cbConf.httpCallback ≠ "" := by decide
  refine ⟨?_, ?_, ?_, ?_, ?_⟩
  · exact (doAuthRequest_status_classification cbConf 204 "" hcb).1
      (by decide) (by decide)
  · exact (doAuthRequest_status_classification cbConf 302 "rtsp://u/x" hcb).2.1
      (by decide) (by decide) (by decide)
  · exact (doAuthRequest_status_classification cbConf 302 "" hcb).2.2.1
      (by decide) (by decide) rfl
  · exact (doAuthRequest_status_classification cbConf 403 "" hcb).2.2.2.1
      (by decide) (by decide)
  · exact (doAuthRequest_status_classification cbConf 500 "" hcb).2.2.2.2.1
      (Or.inr (by decide))

/-- Claim C7: with a non-empty read-IP list and a present caller IP, the IP
gate of `authenticate` (as invoked with the read-side fields by the Describe
and SetupPlay cases, pathman.go lines 197-204 and 245-252) rejects with an
`AuthCritical` error of wire status 401 when no listed address equals the IP
and no listed CIDR contains it, and passes the request on to the credential
gate when some listed entry admits it. -/
theorem read_ip_gate_401 (i : IPBytes) (l : List IPSpec) (_hne : l ≠ [])
    (v : Option (String → String → Option String)) (u p : String) :
    ((∀ spec ∈ l, ipSpecMatches spec i = false) →
      authenticate (some i) v (some l) u p =
        some (.authCritical (ipNotAllowedMsg i) 401))
    ∧ ((∃ spec ∈ l, ipSpecMatches spec i = true) →
      authenticate (some i) v (some l) u p = credentialGate v u p) := by
  constructor
  · intro hall
    have hrange : ipEqualOrInRange i l = false := by
      rw [ipEqualOrInRange_eq_any]
      simp only [List.any_eq_false]
      intro spec hs
      simp [hall spec hs]
    unfold authenticate
    simp [hrange]
  · intro hex
    have hrange : ipEqualOrInRange i l = true := by
      rw [ipEqualOrInRange_eq_any]
      simp only [List.any_eq_true]
      rcases hex with ⟨spec, hs, hm⟩
      exact ⟨spec, hs, hm⟩
    unfold authenticate
    simp [hrange]

theorem read_ip_gate_401_witness :
    authenticate (some [192, 168, 1, 5]) none
        (some [.cidr [10, 0, 0, 0] [255, 0, 0, 0]]) "" "" =
      some (.authCritical (ipNotAllowedMsg [192, 168, 1, 5]) 401)
    ∧ authenticate (some [10, 1, 2, 3]) none
        (some [.cidr [10, 0, 0, 0] [255, 0, 0, 0]]) "" "" =
      credentialGate none "" "" := by
  constructor
  · exact (read_ip_gate_401 [192, 168, 1, 5] [.cidr [10, 0, 0, 0] [255, 0, 0, 0]]
      (by decide) none "" "").1 (by decide)
  · exact (read_ip_gate_401 [10, 1, 2, 3] [.cidr [10, 0, 0, 0] [255, 0, 0, 0]]
      (by decide) none "" "").2 ⟨.cidr [10, 0, 0, 0] [255, 0, 0, 0], by decide, by decide⟩

/-- Claim C5: resolution of a live path name first rejects invalid names
(regardless of the registry contents); otherwise an exact registry key wins
and is returned instantiated for the name; otherwise the first regex entry in
iteration order whose pattern matches the name is returned instantiated;
otherwise the not-found error with the live name substituted into the
message. -/
theorem findPathConf_resolution_order (ms : String → String → Bool)
    (s : PMState) (name : String) :
    (∀ e, CheckPathName name = some e →
      (findPathConf ms s name).1 =
        .error ("invalid path name: " ++ e ++ " (" ++ name ++ ")"))
    ∧ (∀ c, CheckPathName name = none →
        lookupKey s.pathConfs name = some c →
        (findPathConf ms s name).1 = .ok (name, (c.GetInstance name s.nextId).1))
    ∧ (∀ k c, CheckPathName name = none →
        lookupKey s.pathConfs name = none →
        s.pathConfs.find? (fun q =>
          match q.2.regexpPat with
          | some pat => ms pat name
          | none => false) = some (k, c) →
        (findPathConf ms s name).1 = .ok (k, (c.GetInstance name s.nextId).1))
    ∧ (CheckPathName name = none →
        lookupKey s.pathConfs name = none →
        s.pathConfs.find? (fun q =>
          match q.2.regexpPat with
          | some pat => ms pat name
          | none => false) = none →
        (findPathConf ms s name).1 =
          .error ("unable to find a valid configuration for path '"
            ++ name ++ "'")) := by
  refine ⟨?_, ?_, ?_, ?_⟩
  · intro e he
    unfold findPathConf
    rw [he]
  · intro c hv hc
    unfold findPathConf
    rw [hv, hc]
  · intro k c hv hc hre
    unfold findPathConf
    rw [hv, hc, hre]
  · intro hv hc hre
    unfold findPathConf
    rw [hv, hc, hre]

theorem findPathConf_resolution_order_witness :
    (findPathConf noMatch state0 "bad//name").1 =
      .error ("invalid path name: contains an empty segment (bad//name)")
    ∧ (findPathConf noMatch state0 "cam1").1 = .ok ("cam1", cbConf)
    ∧ (findPathConf liveMatch reState "live/a").1 = .ok ("~live", reConfInstance)
    ∧ (findPathConf noMatch state0 "ghost").1 =
      .error ("unable to find a valid configuration for path 'ghost'") := by
  refine ⟨?_, ?_, ?_, ?_⟩
  · exact (findPathConf_resolution_order noMatch state0 "bad//name").1
      ("contains an empty segment") (by decide)
  · exact (findPathConf_resolution_order noMatch state0 "cam1").2.1
      cbConf (by decide) (by decide)
  · exact (findPathConf_resolution_order liveMatch reState "live/a").2.2.1
      "~live" reConf (by decide) (by decide) (by decide)
  · exact (findPathConf_resolution_order noMatch state0 "ghost").2.2.2
      (by decide) (by decide) (by decide)

theorem handlePlay_eq_of_find_error (ms : String → String → Bool)
    (resp : HTTPResult) (s : PMState) (req : ReqInput) (e : String) (nid : Nat)
    (hf : findPathConf ms s req.pathName = (.error e, nid)) :
    handlePlay ms resp s req = ({ s with nextId := nid }, .replyErr (.find e)) := by
  unfold handlePlay
  rw [hf]

theorem handlePlay_eq_of_close (ms : String → String → Bool)
    (resp : HTTPResult) (s : PMState) (req : ReqInput)
    (nm : String) (c : PathConf) (nid : Nat) (a : PlayRequestAction)
    (hf : findPathConf ms s req.pathName = (.ok (nm, c), nid))
    (hd : DoAuthRequest c resp = .ok a) (hc : a.close = true) :
    handlePlay ms resp s req = ({ s with nextId := nid }, .replyErr .notAllowed) := by
  unfold handlePlay
  rw [hf]
  dsimp only
  rw [hd]
  dsimp only
  rw [hc]
  simp

theorem handlePlay_eq_of_redirect (ms : String → String → Bool)
    (resp : HTTPResult) (s : PMState) (req : ReqInput)
    (nm : String) (c : PathConf) (nid : Nat) (t : String)
    (hf : findPathConf ms s req.pathName = (.ok (nm, c), nid))
    (hd : DoAuthRequest c resp = .ok ⟨false, t⟩) (ht : t ≠ "")
    (ha : authenticate req.ip req.validateCredentials
      c.readIPsParsed c.readUser c.readPass = none)
    (hlk : lookupKey s.paths t = none) :
    handlePlay ms resp s req =
      ({ s with nextId := nid + 1,
                paths := setKey s.paths t
                  (createPath nm { c with id := nid, source := t } req.pathName) },
        .forward t) := by
  unfold handlePlay
  rw [hf]
  dsimp only
  rw [hd]
  dsimp only
  simp [ht, ha, hlk, createPath]

theorem handlePlay_frame (ms : String → String → Bool) (resp : HTTPResult)
    (s : PMState) (req : ReqInput) :
    (handlePlay ms resp s req).1.pathConfs = s.pathConfs
    ∧ (∀ e, (handlePlay ms resp s req).2 = .replyErr e →
        (handlePlay ms resp s req).1.paths = s.paths) := by
  unfold handlePlay
  rcases hf : findPathConf ms s req.pathName with ⟨res, nid⟩
  cases res with
  | error err => exact ⟨rfl, fun e h => rfl⟩
  | ok pc =>
    rcases pc with ⟨nm, c⟩
    dsimp only
    cases hd : DoAuthRequest c resp with
    | error err => exact ⟨rfl, fun e h => rfl⟩
    | ok action =>
      dsimp only
      cases hcl : action.close with
      | true =>
        simp only [if_pos rfl]
        exact ⟨rfl, fun e h => rfl⟩
      | false =>
        simp only [Bool.false_eq_true, if_false, ite_false]
        by_cases ht : action.target = ""
        · simp only [ht, ne_eq, not_true_eq_false, if_false, ite_false]
          cases ha : authenticate req.ip req.validateCredentials
              c.readIPsParsed c.readUser c.readPass with
          | some e0 => exact ⟨rfl, fun e h => rfl⟩
          | none =>
            refine ⟨?_, fun e h => absurd h (by simp)⟩
            dsimp only
            split <;> rfl
        · simp only [ht, ne_eq, not_false_iff, if_true, ite_true]
          cases ha : authenticate req.ip req.validateCredentials
              c.readIPsParsed c.readUser c.readPass with
          | some e0 => exact ⟨rfl, fun e h => rfl⟩
          | none =>
            refine ⟨?_, fun e h => absurd h (by simp)⟩
            dsimp only
            split <;> rfl

/-- Claim C3: a Describe for which config resolution, the HTTP callback step,
or authorisation fails is answered with exactly one error reply and creates
no Path — the live path set is exactly what it was.  In particular a failed
resolution replies with that error, and a 4xx callback response (such as 403)
replies not-allowed, both leaving the path set unchanged. -/
theorem play_failure_replies_once_no_create (ms : String → String → Bool)
    (resp : HTTPResult) (s : PMState) (req : ReqInput) :
    (∀ e, (handlePlay ms resp s req).2 = .replyErr e →
        (handlePlay ms resp s req).1.paths = s.paths)
    ∧ (∀ e nid, findPathConf ms s req.pathName = (.error e, nid) →
        (handlePlay ms resp s req).2 = .replyErr (.find e)
          ∧ (handlePlay ms resp s req).1.paths = s.paths)
    ∧ (∀ status loc nm c nid, resp = .response status loc →
        400 ≤ status → status ≤ 499 →
        findPathConf ms s req.pathName = (.ok (nm, c), nid) →
        c.httpCallback ≠ "" →
        (handlePlay ms resp s req).2 = .replyErr .notAllowed
          ∧ (handlePlay ms resp s req).1.paths = s.paths) := by
  refine ⟨(handlePlay_frame ms resp s req).2, ?_, ?_⟩
  · intro e nid hf
    rw [handlePlay_eq_of_find_error ms resp s req e nid hf]
    exact ⟨rfl, rfl⟩
  · intro status loc nm c nid hresp h4a h4b hf hcb
    have hd : DoAuthRequest c resp = .ok ⟨true, ""⟩ := by
      subst hresp
      unfold DoAuthRequest
      have h1 : ¬ (200 ≤ status ∧ status ≤ 299) := by omega
      have h2 : ¬ (300 ≤ status ∧ status ≤ 399) := by omega
      have h3 : 400 ≤ status ∧ status ≤ 499 := by omega
      simp [hcb, h1, h2, h3]
    rw [handlePlay_eq_of_close ms resp s req nm c nid ⟨true, ""⟩ hf hd rfl]
    exact ⟨rfl, rfl⟩

theorem play_failure_replies_once_no_create_witness :
    (handlePlay noMatch (.response 403 "") state0 sampleReq).2 =
      .replyErr .notAllowed
    ∧ (handlePlay noMatch (.response 403 "") state0 sampleReq).1.paths =
      state0.paths :=
  (play_failure_replies_once_no_create noMatch (.response 403 "") state0
    sampleReq).2.2 403 "" "cam1" cbConf 2 rfl (by decide) (by decide) rfl
    (by decide)

/-- Claim C4: the registry is never touched by Describe/SetupPlay handling;
and when the callback returns a redirect target, the Path is created from a
fresh copy of the resolved config that differs from it only in the pointer
identity and the source field (which becomes the target), so the config
stored in the registry is unchanged in every field. -/
theorem redirect_mutates_copy_not_registry (ms : String → String → Bool)
    (resp : HTTPResult) (s : PMState) (req : ReqInput) :
    (handlePlay ms resp s req).1.pathConfs = s.pathConfs
    ∧ (∀ nm c nid t,
        findPathConf ms s req.pathName = (.ok (nm, c), nid) →
        DoAuthRequest c resp = .ok ⟨false, t⟩ → t ≠ "" →
        authenticate req.ip req.validateCredentials
          c.readIPsParsed c.readUser c.readPass = none →
        lookupKey s.paths t = none →
        lookupKey (handlePlay ms resp s req).1.paths t =
          some (createPath nm { c with id := nid, source := t } req.pathName)) := by
  refine ⟨(handlePlay_frame ms resp s req).1, ?_⟩
  intro nm c nid t hf hd ht ha hlk
  rw [handlePlay_eq_of_redirect ms resp s req nm c nid t hf hd ht ha hlk]
  exact lookupKey_setKey_self s.paths t _

theorem redirect_mutates_copy_not_registry_witness :
    redirectedState.pathConfs = state0.pathConfs
    ∧ lookupKey redirectedState.paths "rtsp://u/x" = some redirectedPath := by
  constructor
  · exact (redirect_mutates_copy_not_registry noMatch
      (.response 302 "rtsp://u/x") state0 sampleReq).1
  · exact (redirect_mutates_copy_not_registry noMatch
      (.response 302 "rtsp://u/x") state0 sampleReq).2
      "cam1" cbConf 2 "rtsp://u/x" rfl rfl (by decide) rfl rfl

/-- Claim C1 is refuted by the code (the slip spec §9 flags): at the failing
input — an Announce for `cam1` against a registry holding the literal entry
`cam1`, publish authorisation passing, no live Path at the resolved source
key `publisher` — the Announce case creates a Path but discards it
(pathman.go line 286 lacks the assignment present at line 212), the live
path set stays empty, and the forward at line 289 dereferences the missing
entry (a nil `*path.Path`). -/
theorem announce_drops_created_path_and_derefs_missing :
    (handleAnnounce noMatch announceState sampleReq).2.1 =
      some (createPath "cam1" sampleConf "cam1")
    ∧ (handleAnnounce noMatch announceState sampleReq).1.paths = []
    ∧ (handleAnnounce noMatch announceState sampleReq).2.2 =
      .nilDeref "publisher" := by
  refine ⟨rfl, rfl, rfl⟩

/-- Claim C2 is refuted by the code: after `New` with the single literal
entry `cam1` (source key `publisher`, not live), `createPaths` spawns a Path
for it but — pathman.go line 318 discarding the value `createPath` returns —
never stores it, so the live path set is empty rather than containing a Path
under the source key. -/
theorem new_spawns_but_does_not_store_literal_paths :
    sampleConf.regexpPat = none
    ∧ (New [("cam1", sampleConf)] 2).2 = [createPath "cam1" sampleConf "cam1"]
    ∧ (New [("cam1", sampleConf)] 2).1.paths = [] := by
  refine ⟨rfl, rfl, rfl⟩

/-- Claim C8 as stated is refuted: `redirectedState` is reachable (one
Describe answered with a 302 redirect), its registry is exactly
`[("cam1", cbConf)]`, and reloading that very same map — trivially key-for-key
structurally equal to the stored one — closes the live Path and empties the
live path set, because the Path carries a copied config object that fails the
pointer comparison of pathman.go line 153. -/
theorem identical_reload_closes_redirected_path :
    redirectedState.pathConfs = [("cam1", cbConf)]
    ∧ cbConf.Equal cbConf = true
    ∧ redirectedState.paths = [("rtsp://u/x", redirectedPath)]
    ∧ (handleConfReload redirectedState [("cam1", cbConf)]).1.paths = []
    ∧ (handleConfReload redirectedState [("cam1", cbConf)]).2.1 =
      [redirectedPath] := by
  refine ⟨rfl, by decide, rfl, by decide, by decide⟩

theorem reloadConfs_eq_self (old newConfs : List (String × PathConf))
    (hold : ∀ p ∈ old, ∃ nc, lookupKey newConfs p.1 = some nc
        ∧ p.2.Equal nc = true)
    (hnew : ∀ p ∈ newConfs, (lookupKey old p.1).isSome) :
    reloadConfs old newConfs = old := by
  simp only [reloadConfs]
  have h1 : (old.filter fun p => (lookupKey newConfs p.1).isSome) = old := by
    refine List.filter_eq_self.mpr ?_
    intro p hp
    obtain ⟨nc, hnc, _⟩ := hold p hp
    simp [hnc]
  rw [h1]
  have h2 : (old.map fun p =>
      match lookupKey newConfs p.1 with
      | some nc => if p.2.Equal nc then p else (p.1, nc)
      | none => p) = old := by
    have hid : ∀ p ∈ old, (fun (p : String × PathConf) =>
        match lookupKey newConfs p.1 with
        | some nc => if p.2.Equal nc then p else (p.1, nc)
        | none => p) p = id p := by
      intro p hp
      obtain ⟨nc, hnc, heq⟩ := hold p hp
      simp [hnc, heq]
    rw [List.map_congr_left hid, List.map_id]
  rw [h2]
  have h3 : (newConfs.filter fun p => (lookupKey old p.1).isNone) = [] := by
    rw [List.filter_eq_nil_iff]
    intro p hp
    have h := hnew p hp
    cases hk : lookupKey old p.1 with
    | none => rw [hk] at h; simp at h
    | some v => simp [hk]
  rw [h3, List.append_nil]

/-- Claim C8, amended: a reload whose incoming map is key-for-key
structurally equal to the stored registry closes no live Path and changes
neither the live path set nor the registry, provided additionally that every
live Path carries the very config object stored in the registry under its
conf name.  (Without that proviso the claim fails: a Path holding a copied
config — from a callback redirect — is closed even by an identical reload,
since pathman.go line 153 compares config pointers, not structure.) -/
theorem structurally_equal_reload_no_churn (s : PMState)
    (newConfs : List (String × PathConf))
    (hold : ∀ p ∈ s.pathConfs, ∃ nc, lookupKey newConfs p.1 = some nc
        ∧ p.2.Equal nc = true)
    (hnew : ∀ p ∈ newConfs, (lookupKey s.pathConfs p.1).isSome)
    (hlive : ∀ kp ∈ s.paths, ∃ c, lookupKey s.pathConfs kp.2.confName = some c
        ∧ c.id = kp.2.conf.id) :
    (handleConfReload s newConfs).1.paths = s.paths
    ∧ (handleConfReload s newConfs).2.1 = []
    ∧ (handleConfReload s newConfs).1.pathConfs = s.pathConfs := by
  have hconfs : reloadConfs s.pathConfs newConfs = s.pathConfs :=
    reloadConfs_eq_self s.pathConfs newConfs hold hnew
  have hkeep : s.paths.filter (keepPath s.pathConfs) = s.paths := by
    refine List.filter_eq_self.mpr ?_
    intro kp hkp
    obtain ⟨c, hc, hid⟩ := hlive kp hkp
    unfold keepPath
    rw [hc]
    simp [hid]
  have hclosed : (s.paths.filter fun kp => ! keepPath s.pathConfs kp) = [] := by
    rw [List.filter_eq_nil_iff]
    intro kp hkp
    obtain ⟨c, hc, hid⟩ := hlive kp hkp
    unfold keepPath
    rw [hc]
    simp [hid]
  simp only [handleConfReload, createPaths, hconfs, hkeep, hclosed]
  exact ⟨trivial, rfl, trivial⟩

theorem structurally_equal_reload_no_churn_witness :
    (handleConfReload storedPathState [("cam1", sampleConf)]).1.paths =
      storedPathState.paths
    ∧ (handleConfReload storedPathState [("cam1", sampleConf)]).2.1 = [] := by
  have h := structurally_equal_reload_no_churn storedPathState
    [("cam1", sampleConf)]
    (by
      intro p hp
      have hp2 : p = ("cam1", sampleConf) := List.mem_singleton.mp hp
      subst hp2
      exact ⟨sampleConf, rfl, by decide⟩)
    (by
      intro p hp
      have hp2 : p = ("cam1", sampleConf) := List.mem_singleton.mp hp
      subst hp2
      rfl)
    (by
      intro kp hkp
      have hkp2 : kp = ("publisher", createPath "cam1" sampleConf "cam1") :=
        List.mem_singleton.mp hkp
      subst hkp2
      exact ⟨sampleConf, rfl, rfl⟩)
  exact ⟨h.1, h.2.1⟩

end RSS
